import Mathlib

/-!
Verification of the `pallet-auction` double-auction matching pallet
(`src/lib.rs`).  The data model (`Bid`, `AuctionStatus`, `AuctionData`,
`Tier`, the `Auctions` storage map, the events and the error enum) and the
single implemented extrinsic `create_auction` are embedded directly from the
source.  The lifecycle operations that the module documentation and the
design document declare (`bid_on_auction`, `destroy_auction`, the expiry
sweep, and the Tier classifier) are absent from the source; those are
modelled from the specification and clearly marked as such.
-/

namespace Auction

/-- Account identifiers (`T::AccountId`); modelled as naturals with
default account `0`. -/
abbrev AccountId := Nat

/-- Block numbers (`T::BlockNumber`); modelled as naturals. -/
abbrev BlockNumber := Nat

/-- Storage keys (`T::Hash`); modelled as naturals. -/
abbrev Hash := Nat

/-- A buyer's bid (`struct Bid`, src/lib.rs lines 89-93): the bidding
account and the bid amount (a `u128`, here a natural; amounts are only
ever compared, never subject to wrapping arithmetic). -/
structure Bid where
  buyer_id : AccountId
  bid : Nat
  deriving DecidableEq, Repr

/-- `#[derive(Default)]` on `Bid`: default account, amount `0`. -/
def Bid.default : Bid := { buyer_id := 0, bid := 0 }

/-- Status of an auction (`enum AuctionStatus`, src/lib.rs lines 96-100):
live auctions accept bids. -/
inductive AuctionStatus where
  | Alive
  | Dead
  deriving DecidableEq, Repr

/-- `impl Default for AuctionStatus` (src/lib.rs lines 101-105). -/
def AuctionStatus.default : AuctionStatus := AuctionStatus.Alive

/-- Tier of an auction sale (`struct Tier`, src/lib.rs lines 124-127):
higher quantity of energy for sale leads to higher tier. -/
structure Tier where
  level : Nat
  deriving DecidableEq, Repr

/-- `impl Default for Tier` (src/lib.rs lines 128-132). -/
def Tier.default : Tier := { level := 1 }

/-- Essential data for an auction (`struct AuctionData`, src/lib.rs
lines 108-120), with the generic parameters instantiated exactly as the
`Auctions` storage map instantiates them. -/
structure AuctionData where
  seller_id : AccountId
  quantity : Nat
  starting_bid : Nat
  bids : List Bid
  auction_period : BlockNumber
  auction_status : AuctionStatus
  start_at : BlockNumber
  ended_at : BlockNumber
  highest_bid : Bid
  auction_category : Tier
  deriving DecidableEq, Repr

/-- `#[derive(Default)]` on `AuctionData`: every field takes its own
default. -/
def AuctionData.default : AuctionData :=
  { seller_id := 0
    quantity := 0
    starting_bid := 0
    bids := []
    auction_period := 0
    auction_status := AuctionStatus.default
    start_at := 0
    ended_at := 0
    highest_bid := Bid.default
    auction_category := Tier.default }

/-- The runtime events of the pallet (`enum Event`, src/lib.rs
lines 151-183). -/
inductive Event where
  | AuctionCreated (seller : AccountId) (energy_quantity : Nat)
      (starting_price : Nat)
  | AuctionMatched (seller : AccountId) (buyer : AccountId)
      (energy_quantity : Nat) (starting_price : Nat) (highest_bid : Nat)
      (matched_at : BlockNumber)
  | AuctionExecuted (seller : AccountId) (buyer : AccountId)
      (energy_quantity : Nat) (starting_price : Nat) (highest_bid : Nat)
      (executed_at : BlockNumber)
  | AuctionDestroyed (seller : AccountId) (energy_quantity : Nat)
      (starting_price : Nat)
  deriving DecidableEq, Repr

/-- The pallet error enum (`enum Error<T>`, src/lib.rs lines 189-198);
the triple-f spelling is the source's. -/
inductive Error where
  | AuctionDoesNotExist
  | AuctionIsOver
  | UnAuthorizedCall
  | InsuffficientAttachedDeposit
  deriving DecidableEq, Repr

/-- The `Auctions` storage map (src/lib.rs lines 137-145): a keyed map
from `T::Hash` to `AuctionData`, `OptionQuery`.  Modelled as an
association list. -/
abbrev Store := List (Hash × AuctionData)

/-- Storage lookup (`Auctions::<T>::get`): `some` for a present key,
`none` otherwise (OptionQuery). -/
def Store.get : Store → Hash → Option AuctionData
  | [], _ => none
  | (k, v) :: rest, id => if id = k then some v else Store.get rest id

/-- Insert a fresh entry (`Auctions::<T>::insert` on an absent key). -/
def Store.insert (m : Store) (id : Hash) (r : AuctionData) : Store :=
  (id, r) :: m

/-- Replace the entry at an existing key (update-in-place). -/
def Store.set : Store → Hash → AuctionData → Store
  | [], _, _ => []
  | (k, v) :: rest, id, r =>
      if id = k then (k, r) :: rest else (k, v) :: Store.set rest id r

/-- Pallet state observable through this module: the `Auctions` storage
map and the ordered sequence of deposited events. -/
structure PalletState where
  auctions : Store
  events : List Event
  deriving DecidableEq, Repr

/-- The implemented extrinsic `create_auction` (src/lib.rs lines 205-209):
`pub fn create_auction(_origin: OriginFor<T>) -> DispatchResult { Ok(()) }`.
It ignores its origin, reads and writes no storage, and deposits no
event. -/
def create_auction (_origin : AccountId) (s : PalletState) :
    Except Error Unit × PalletState :=
  (Except.ok (), s)

/-! ### The lifecycle machine modelled from the specification

The module documentation of src/lib.rs declares the interface
`create_auction`, `bid_on_auction`, `destroy_auction` and the hooks,
and the design document (spec §4) gives their contracts, but their
bodies are missing from the source.  The definitions below model them
from the specification. -/

/-- Modelled from the spec: the error kinds of §7.  The source's
`Error` enum lacks `BidTooLow` and `DuplicateAuction`, which §7
requires; the lifecycle model uses this extended enumeration. -/
inductive SpecError where
  | AuctionDoesNotExist
  | AuctionIsOver
  | UnAuthorizedCall
  | InsufficientAttachedDeposit
  | BidTooLow
  | DuplicateAuction
  deriving DecidableEq, Repr

/-- Modelled from the spec: the Tier Classifier of §4.1 is absent from
the source (only `struct Tier` exists).  `classify(quantity) -> Tier` is
a pure, total, monotonic non-decreasing step function with `level ≥ 1`
(§3); the concrete thresholds are a representative choice, since the
spec fixes only the shape. -/
def classify (quantity : Nat) : Tier :=
  if quantity < 10 then { level := 1 }
  else if quantity < 100 then { level := 2 }
  else if quantity < 1000 then { level := 3 }
  else { level := 4 }

/-- Modelled from the spec: the content+salt digest of §3 that addresses
an `AuctionRecord`; computed over the record's defining fields plus the
caller-supplied salt.  `Nat.pair` stands in for the hash, keeping the
function deterministic and executable. -/
def digest (seller : AccountId) (quantity starting_bid : Nat)
    (period : BlockNumber) (salt : Nat) : Hash :=
  Nat.pair seller (Nat.pair quantity (Nat.pair starting_bid
    (Nat.pair period salt)))

/-- Modelled from the spec: the Bid Ledger insertion of §4.2, absent
from the source.  Rejects with `BidTooLow` if the amount is `≤` the
current highest (the head of the descending ledger), or `< starting_bid`
when the ledger is empty; an accepted bid is strictly greater than all
prior bids, so acceptance prepends. -/
def ledgerInsert (starting_bid : Nat) (bids : List Bid) (b : Bid) :
    Except SpecError (List Bid) :=
  match bids with
  | [] =>
      if b.bid < starting_bid then Except.error SpecError.BidTooLow
      else Except.ok [b]
  | top :: _ =>
      if b.bid ≤ top.bid then Except.error SpecError.BidTooLow
      else Except.ok (b :: bids)

/-- State of the lifecycle machine modelled from the spec: the Store and
the append-only outbound event sequence (§6). -/
structure SpecState where
  auctions : Store
  events : List Event
  deriving DecidableEq, Repr

/-- The empty initial state: no auctions, no events. -/
def initState : SpecState := { auctions := [], events := [] }

/-- Modelled from the spec: the Create transition of §4.4.  Computes the
Tier via the classifier, the identifier via the digest, fails with
`DuplicateAuction` if the identifier already exists, otherwise inserts a
fresh Alive record with empty bids and zero highest bid and emits
`AuctionCreated`. -/
def spec_create (now : BlockNumber) (seller : AccountId)
    (quantity starting_bid : Nat) (period : BlockNumber) (salt : Nat)
    (s : SpecState) : Except SpecError Unit × SpecState :=
  let tier := classify quantity
  let id := digest seller quantity starting_bid period salt
  match Store.get s.auctions id with
  | some _ => (Except.error SpecError.DuplicateAuction, s)
  | none =>
      let record : AuctionData :=
        { seller_id := seller
          quantity := quantity
          starting_bid := starting_bid
          bids := []
          auction_period := period
          auction_status := AuctionStatus.Alive
          start_at := now
          ended_at := 0
          highest_bid := Bid.default
          auction_category := tier }
      (Except.ok (),
        { auctions := Store.insert s.auctions id record
          events := s.events ++
            [Event.AuctionCreated seller quantity starting_bid] })

/-- Modelled from the spec: the Bid transition of §4.4.  Fails with
`AuctionDoesNotExist` on an absent id, `AuctionIsOver` on a Dead record,
`InsufficientAttachedDeposit` when the escrow collaborator's boolean
precondition is false, then delegates to the ledger insertion; on
success updates the bids and the `highest_bid` cache. -/
def spec_bid (id : Hash) (buyer : AccountId) (amount : Nat)
    (depositOk : Bool) (s : SpecState) :
    Except SpecError Unit × SpecState :=
  match Store.get s.auctions id with
  | none => (Except.error SpecError.AuctionDoesNotExist, s)
  | some r =>
      match r.auction_status with
      | AuctionStatus.Dead => (Except.error SpecError.AuctionIsOver, s)
      | AuctionStatus.Alive =>
          if depositOk = false then
            (Except.error SpecError.InsufficientAttachedDeposit, s)
          else
            match ledgerInsert r.starting_bid r.bids
                { buyer_id := buyer, bid := amount } with
            | Except.error e => (Except.error e, s)
            | Except.ok newBids =>
                let r2 := { r with
                  bids := newBids
                  highest_bid := { buyer_id := buyer, bid := amount } }
                (Except.ok (),
                  { s with auctions := Store.set s.auctions id r2 })

/-- Modelled from the spec: the Expire/Resolve transition of §4.4,
invoked by the `check_expiry` sweep of §6.  Fails with
`AuctionDoesNotExist` on an absent id and `AuctionIsOver` on a Dead
record; before the deadline it is a skip; at or past the deadline it
marks the record Dead, sets `ended_at`, and emits `AuctionMatched` when
a real highest bid exists and `AuctionDestroyed` otherwise. -/
def check_expiry (now : BlockNumber) (id : Hash) (s : SpecState) :
    Except SpecError Unit × SpecState :=
  match Store.get s.auctions id with
  | none => (Except.error SpecError.AuctionDoesNotExist, s)
  | some r =>
      match r.auction_status with
      | AuctionStatus.Dead => (Except.error SpecError.AuctionIsOver, s)
      | AuctionStatus.Alive =>
          if now < r.start_at + r.auction_period then (Except.ok (), s)
          else
            let r2 := { r with
              auction_status := AuctionStatus.Dead, ended_at := now }
            let e :=
              if 0 < r.highest_bid.bid then
                Event.AuctionMatched r.seller_id r.highest_bid.buyer_id
                  r.quantity r.starting_bid r.highest_bid.bid now
              else
                Event.AuctionDestroyed r.seller_id r.quantity
                  r.starting_bid
            (Except.ok (),
              { auctions := Store.set s.auctions id r2
                events := s.events ++ [e] })

/-- Modelled from the spec: the Destroy transition of §4.4.  Fails with
`AuctionDoesNotExist` if absent, `UnAuthorizedCall` if the caller is not
the seller, `AuctionIsOver` if already Dead; on success marks the
record Dead and emits `AuctionDestroyed`. -/
def spec_destroy (id : Hash) (caller : AccountId) (s : SpecState) :
    Except SpecError Unit × SpecState :=
  match Store.get s.auctions id with
  | none => (Except.error SpecError.AuctionDoesNotExist, s)
  | some r =>
      if caller ≠ r.seller_id then
        (Except.error SpecError.UnAuthorizedCall, s)
      else
        match r.auction_status with
        | AuctionStatus.Dead => (Except.error SpecError.AuctionIsOver, s)
        | AuctionStatus.Alive =>
            let r2 := { r with auction_status := AuctionStatus.Dead }
            (Except.ok (),
              { auctions := Store.set s.auctions id r2
                events := s.events ++
                  [Event.AuctionDestroyed r.seller_id r.quantity
                    r.starting_bid] })

/-- One inbound operation of §6 (the single, strictly ordered operation
sequence mandated by §5). -/
inductive Op where
  | create (now : BlockNumber) (seller : AccountId)
      (quantity starting_bid : Nat) (period : BlockNumber) (salt : Nat)
  | bid (id : Hash) (buyer : AccountId) (amount : Nat) (depositOk : Bool)
  | expire (now : BlockNumber) (id : Hash)
  | destroy (id : Hash) (caller : AccountId)
  deriving DecidableEq, Repr

/-- Apply one operation, keeping only the resulting state (a failed
validation leaves the Store unchanged, §5). -/
def applyOp (s : SpecState) (op : Op) : SpecState :=
  match op with
  | Op.create now seller quantity starting_bid period salt =>
      (spec_create now seller quantity starting_bid period salt s).2
  | Op.bid id buyer amount depositOk =>
      (spec_bid id buyer amount depositOk s).2
  | Op.expire now id => (check_expiry now id s).2
  | Op.destroy id caller => (spec_destroy id caller s).2

/-- Run a sequence of operations in order. -/
def run (ops : List Op) (s : SpecState) : SpecState :=
  ops.foldl applyOp s

/-- The record invariant of §3: the `highest_bid` cache is the default
Bid when `bids` is empty, and otherwise equals the head of the
descending ledger, which bounds every entry. -/
def goodRecord (r : AuctionData) : Prop :=
  match r.bids with
  | [] => r.highest_bid = Bid.default
  | b :: _ => r.highest_bid = b ∧ ∀ x ∈ r.bids, x.bid ≤ b.bid

/-- A state is good when every stored record satisfies the record
invariant. -/
def goodState (s : SpecState) : Prop :=
  ∀ id r, Store.get s.auctions id = some r → goodRecord r

/-- Fixture: a live record with floor price 50 and one accepted bid of
60 by account 2, stored under key 7 in `sampleState`. -/
def sampleRec : AuctionData :=
  { seller_id := 1
    quantity := 100
    starting_bid := 50
    bids := [{ buyer_id := 2, bid := 60 }]
    auction_period := 10
    auction_status := AuctionStatus.Alive
    auction_category := classify 100
    start_at := 0
    ended_at := 0
    highest_bid := { buyer_id := 2, bid := 60 } }

/-- Fixture: a one-auction state holding `sampleRec` at key 7. -/
def sampleState : SpecState :=
  { auctions := [(7, sampleRec)], events := [] }

/-- Fixture: `sampleRec` after resolution (Dead at height 10). -/
def deadRec : AuctionData :=
  { sampleRec with auction_status := AuctionStatus.Dead, ended_at := 10 }

/-- Fixture: a one-auction state holding `deadRec` at key 7. -/
def deadState : SpecState :=
  { auctions := [(7, deadRec)], events := [] }

/-- Fixture: `sampleState` after resolution of auction 7 at height 10
(the bid of 60 by account 2 wins, so `AuctionMatched` is emitted). -/
def resolvedState : SpecState :=
  { auctions := [(7, deadRec)]
    events := [Event.AuctionMatched 1 2 100 50 60 10] }

/-- Fixture: create an auction (its digest identifier is 2) and place
one accepted bid of 5 by account 2. -/
def wOps : List Op := [Op.create 0 1 0 0 0 0, Op.bid 2 2 5 true]

/-- Fixture: the record stored at identifier 2 after `wOps`. -/
def wRec : AuctionData :=
  { seller_id := 1
    quantity := 0
    starting_bid := 0
    bids := [{ buyer_id := 2, bid := 5 }]
    auction_period := 0
    auction_status := AuctionStatus.Alive
    start_at := 0
    ended_at := 0
    highest_bid := { buyer_id := 2, bid := 5 }
    auction_category := classify 0 }

/-! ### Store lemmas -/

/-- Replacing one key leaves lookups at other keys unchanged. -/
theorem Store.get_set_ne (m : Store) (id id' : Hash) (r : AuctionData)
    (h : id' ≠ id) : Store.get (Store.set m id r) id' = Store.get m id' := by
  induction m with
  | nil => rfl
  | cons p rest ih =>
      obtain ⟨k, v⟩ := p
      by_cases hk : id = k
      · subst hk
        simp [Store.set, Store.get, h]
      · simp only [Store.set, if_neg hk, Store.get]
        by_cases hk' : id' = k
        · simp [hk']
        · simp [hk', ih]

/-- Replacing a present key makes lookups at it return the new record. -/
theorem Store.get_set_self (m : Store) (id : Hash) (r0 r : AuctionData)
    (h : Store.get m id = some r0) :
    Store.get (Store.set m id r) id = some r := by
  induction m with
  | nil => simp [Store.get] at h
  | cons p rest ih =>
      obtain ⟨k, v⟩ := p
      by_cases hk : id = k
      · simp [Store.set, Store.get, hk]
      · simp only [Store.get, if_neg hk] at h
        simp only [Store.set, if_neg hk, Store.get, if_neg hk]
        exact ih h

/-- Inserting a fresh key leaves lookups at other keys unchanged. -/
theorem Store.get_insert_ne (m : Store) (id id' : Hash) (r : AuctionData)
    (h : id' ≠ id) :
    Store.get (Store.insert m id r) id' = Store.get m id' := by
  simp [Store.insert, Store.get, h]

/-- Lookup at a freshly inserted key returns the inserted record. -/
theorem Store.get_insert_self (m : Store) (id : Hash) (r : AuctionData) :
    Store.get (Store.insert m id r) id = some r := by
  simp [Store.insert, Store.get]

/-! ### Invariant preservation -/

/-- The record invariant only reads `bids` and `highest_bid`, so a
status/height update preserves it. -/
theorem goodRecord_update_status (r : AuctionData) (st : AuctionStatus)
    (e : BlockNumber) (h : goodRecord r) :
    goodRecord { r with auction_status := st, ended_at := e } := h

/-- A freshly created record (empty bids, default highest bid)
satisfies the record invariant. -/
theorem goodRecord_fresh (seller : AccountId) (quantity starting_bid : Nat)
    (period : BlockNumber) (now : BlockNumber) (tier : Tier) :
    goodRecord
      { seller_id := seller, quantity := quantity,
        starting_bid := starting_bid, bids := [],
        auction_period := period, auction_status := AuctionStatus.Alive,
        start_at := now, ended_at := 0, highest_bid := Bid.default,
        auction_category := tier } := rfl

/-- An accepted ledger insertion, applied to a record satisfying the
invariant, yields a record satisfying the invariant with the new bid as
cached highest. -/
theorem goodRecord_after_insert (r : AuctionData) (b : Bid)
    (newBids : List Bid) (hgood : goodRecord r)
    (h : ledgerInsert r.starting_bid r.bids b = Except.ok newBids) :
    goodRecord { r with bids := newBids, highest_bid := b } := by
  unfold goodRecord at hgood ⊢
  unfold ledgerInsert at h
  cases hb : r.bids with
  | nil =>
      rw [hb] at h
      by_cases hc : b.bid < r.starting_bid
      · simp [hc] at h
      · simp only [if_neg hc, Except.ok.injEq] at h
        subst h
        simp
  | cons top rest =>
      rw [hb] at h
      simp only [hb] at hgood
      by_cases hc : b.bid ≤ top.bid
      · simp [hc] at h
      · simp only [if_neg hc, Except.ok.injEq] at h
        subst h
        refine ⟨rfl, ?_⟩
        intro x hx
        rcases List.mem_cons.mp hx with hx | hx
        · subst hx; exact Nat.le_refl _
        · have hle : x.bid ≤ top.bid := hgood.2 x hx
          omega

/-- Every lifecycle operation preserves the state invariant. -/
theorem goodState_applyOp (s : SpecState) (op : Op) (hs : goodState s) :
    goodState (applyOp s op) := by
  cases op with
  | create now seller quantity starting_bid period salt =>
      dsimp only [applyOp, spec_create]
      cases hd : Store.get s.auctions
          (digest seller quantity starting_bid period salt) with
      | some r0 => simp only [hd]; exact hs
      | none =>
          simp only [hd]
          intro id r hget
          by_cases hid : id = digest seller quantity starting_bid period salt
          · subst hid
            rw [Store.get_insert_self] at hget
            cases hget
            exact goodRecord_fresh _ _ _ _ _ _
          · rw [Store.get_insert_ne _ _ _ _ hid] at hget
            exact hs id r hget
  | bid id' buyer amount depositOk =>
      dsimp only [applyOp, spec_bid]
      cases hd : Store.get s.auctions id' with
      | none => simp only [hd]; exact hs
      | some r0 =>
          simp only [hd]
          cases hst : r0.auction_status with
          | Dead => exact hs
          | Alive =>
              by_cases hdep : depositOk = false
              · simp only [if_pos hdep]; exact hs
              · simp only [if_neg hdep]
                cases hins : ledgerInsert r0.starting_bid r0.bids
                    { buyer_id := buyer, bid := amount } with
                | error e => exact hs
                | ok newBids =>
                    intro id r hget
                    by_cases hid : id = id'
                    · subst hid
                      rw [Store.get_set_self s.auctions id _ _ hd] at hget
                      cases hget
                      exact goodRecord_after_insert r0 _ newBids
                        (hs id r0 hd) hins
                    · rw [Store.get_set_ne _ _ _ _ hid] at hget
                      exact hs id r hget
  | expire now id' =>
      dsimp only [applyOp, check_expiry]
      cases hd : Store.get s.auctions id' with
      | none => simp only [hd]; exact hs
      | some r0 =>
          simp only [hd]
          cases hst : r0.auction_status with
          | Dead => exact hs
          | Alive =>
              by_cases hdue : now < r0.start_at + r0.auction_period
              · simp only [if_pos hdue]; exact hs
              · simp only [if_neg hdue]
                intro id r hget
                by_cases hid : id = id'
                · subst hid
                  rw [Store.get_set_self s.auctions id _ _ hd] at hget
                  cases hget
                  exact goodRecord_update_status r0 _ _ (hs id r0 hd)
                · rw [Store.get_set_ne _ _ _ _ hid] at hget
                  exact hs id r hget
  | destroy id' caller =>
      dsimp only [applyOp, spec_destroy]
      cases hd : Store.get s.auctions id' with
      | none => simp only [hd]; exact hs
      | some r0 =>
          simp only [hd]
          by_cases hc : caller ≠ r0.seller_id
          · simp only [if_pos hc]; exact hs
          · simp only [if_neg hc]
            cases hst : r0.auction_status with
            | Dead => exact hs
            | Alive =>
                intro id r hget
                by_cases hid : id = id'
                · subst hid
                  rw [Store.get_set_self s.auctions id _ _ hd] at hget
                  cases hget
                  exact goodRecord_update_status r0 _ r0.ended_at
                    (hs id r0 hd)
                · rw [Store.get_set_ne _ _ _ _ hid] at hget
                  exact hs id r hget

/-- A Dead record is untouched by any single lifecycle operation: every
path that would write to its key fails first (`AuctionIsOver`,
`DuplicateAuction`, or `UnAuthorizedCall`), and writes to other keys do
not affect it. -/
theorem dead_applyOp (s : SpecState) (id : Hash) (r : AuctionData)
    (op : Op) (hget : Store.get s.auctions id = some r)
    (hdead : r.auction_status = AuctionStatus.Dead) :
    Store.get (applyOp s op).auctions id = some r := by
  cases op with
  | create now seller quantity starting_bid period salt =>
      dsimp only [applyOp, spec_create]
      cases hd : Store.get s.auctions
          (digest seller quantity starting_bid period salt) with
      | some r0 => simpa [hd] using hget
      | none =>
          simp only [hd]
          have hne : id ≠ digest seller quantity starting_bid period salt := by
            intro h
            rw [h, hd] at hget
            exact Option.noConfusion hget
          rw [Store.get_insert_ne _ _ _ _ hne]
          exact hget
  | bid id' buyer amount depositOk =>
      dsimp only [applyOp, spec_bid]
      cases hd : Store.get s.auctions id' with
      | none => simpa [hd] using hget
      | some r0 =>
          simp only [hd]
          cases hst : r0.auction_status with
          | Dead => exact hget
          | Alive =>
              have hne : id ≠ id' := by
                intro h
                rw [h, hd] at hget
                cases hget
                rw [hdead] at hst
                exact AuctionStatus.noConfusion hst
              by_cases hdep : depositOk = false
              · simp only [if_pos hdep]; exact hget
              · simp only [if_neg hdep]
                cases hins : ledgerInsert r0.starting_bid r0.bids
                    { buyer_id := buyer, bid := amount } with
                | error e => exact hget
                | ok newBids =>
                    rw [Store.get_set_ne _ _ _ _ hne]
                    exact hget
  | expire now id' =>
      dsimp only [applyOp, check_expiry]
      cases hd : Store.get s.auctions id' with
      | none => simpa [hd] using hget
      | some r0 =>
          simp only [hd]
          cases hst : r0.auction_status with
          | Dead => exact hget
          | Alive =>
              have hne : id ≠ id' := by
                intro h
                rw [h, hd] at hget
                cases hget
                rw [hdead] at hst
                exact AuctionStatus.noConfusion hst
              by_cases hdue : now < r0.start_at + r0.auction_period
              · simp only [if_pos hdue]; exact hget
              · simp only [if_neg hdue]
                rw [Store.get_set_ne _ _ _ _ hne]
                exact hget
  | destroy id' caller =>
      dsimp only [applyOp, spec_destroy]
      cases hd : Store.get s.auctions id' with
      | none => simpa [hd] using hget
      | some r0 =>
          simp only [hd]
          by_cases hc : caller ≠ r0.seller_id
          · simp only [if_pos hc]; exact hget
          · simp only [if_neg hc]
            cases hst : r0.auction_status with
            | Dead => exact hget
            | Alive =>
                have hne : id ≠ id' := by
                  intro h
                  rw [h, hd] at hget
                  cases hget
                  rw [hdead] at hst
                  exact AuctionStatus.noConfusion hst
                rw [Store.get_set_ne _ _ _ _ hne]
                exact hget

/-- Running a list of operations unfolds one step at a time. -/
theorem run_cons (op : Op) (ops : List Op) (s : SpecState) :
    run (op :: ops) s = run ops (applyOp s op) := rfl

/-- The empty initial state satisfies the state invariant. -/
theorem goodState_init : goodState initState := by
  intro id r h
  exact Option.noConfusion h

/-- Running any operation sequence preserves the state invariant. -/
theorem goodState_run (ops : List Op) (s : SpecState)
    (hs : goodState s) : goodState (run ops s) := by
  induction ops generalizing s with
  | nil => exact hs
  | cons op ops ih =>
      rw [run_cons]
      exact ih _ (goodState_applyOp s op hs)

/-! ### Claim theorems -/

/-- Claim C1: the specification requires `create_auction` to compute the
Tier of the listed quantity, compute the content+salt digest, insert an
`AuctionRecord` into the Store and emit `AuctionCreated` (failing with
`DuplicateAuction` on collision).  Evaluating the implemented extrinsic
at a concrete creation request shows it does none of this: it returns
`Ok(())`, leaves the Store empty and deposits no event — and the
source's `Error` enum has no `DuplicateAuction` variant at all. -/
theorem create_auction_concrete_noop :
    create_auction 1 { auctions := [], events := [] } =
      (Except.ok (), { auctions := [], events := [] }) := rfl

/-- Claim C2: for every auction and every bid, a bid whose amount is at
most the current highest accepted amount (the head of the descending
ledger), or below `starting_bid` when no bids exist, is rejected with
`BidTooLow` and the state is unchanged; equality with the current
highest is in particular rejected. -/
theorem bid_not_above_highest_rejected (s : SpecState) (id : Hash)
    (r : AuctionData) (buyer : AccountId) (amount : Nat)
    (hget : Store.get s.auctions id = some r)
    (halive : r.auction_status = AuctionStatus.Alive)
    (hlow : (r.bids = [] ∧ amount < r.starting_bid) ∨
        (∃ top rest, r.bids = top :: rest ∧ amount ≤ top.bid)) :
    spec_bid id buyer amount true s =
      (Except.error SpecError.BidTooLow, s) := by
  unfold spec_bid ledgerInsert
  rcases hlow with ⟨hnil, hlt⟩ | ⟨top, rest, hcons, hle⟩
  · simp [hget, halive, hnil, hlt]
  · simp [hget, halive, hcons, hle]

/-- Claim C2 witness: a bid of 60 equal to the current highest 60 on
the live auction 7 is rejected with `BidTooLow`, state unchanged. -/
theorem bid_not_above_highest_rejected_witness :
    spec_bid 7 3 60 true sampleState =
      (Except.error SpecError.BidTooLow, sampleState) :=
  bid_not_above_highest_rejected sampleState 7 sampleRec 3 60 rfl rfl
    (Or.inr ⟨{ buyer_id := 2, bid := 60 }, [], rfl, by decide⟩)

/-- Claim C3: in every reachable state, every stored record's cached
`highest_bid` is the default (zero) Bid when `bids` is empty, and
otherwise is a maximum element of `bids`. -/
theorem highest_bid_cache_correct (ops : List Op) (id : Hash)
    (r : AuctionData)
    (hget : Store.get (run ops initState).auctions id = some r) :
    (r.bids = [] → r.highest_bid = Bid.default) ∧
    (r.bids ≠ [] → r.highest_bid ∈ r.bids ∧
        ∀ b ∈ r.bids, b.bid ≤ r.highest_bid.bid) := by
  have hg : goodRecord r :=
    goodState_run ops initState goodState_init id r hget
  unfold goodRecord at hg
  cases hb : r.bids with
  | nil =>
      simp only [hb] at hg
      exact ⟨fun _ => hg, fun hne => absurd rfl hne⟩
  | cons top rest =>
      simp only [hb] at hg
      refine ⟨fun h => List.noConfusion h, fun _ => ?_⟩
      rw [hg.1]
      exact ⟨List.mem_cons_self top rest, fun b hbmem => hg.2 b hbmem⟩

/-- Claim C3 witness: after creating auction 2 and accepting the bid of
5 by account 2, the stored record's cache is that maximum bid. -/
theorem highest_bid_cache_correct_witness :
    (wRec.bids = [] → wRec.highest_bid = Bid.default) ∧
    (wRec.bids ≠ [] → wRec.highest_bid ∈ wRec.bids ∧
        ∀ b ∈ wRec.bids, b.bid ≤ wRec.highest_bid.bid) :=
  highest_bid_cache_correct wOps 2 wRec rfl

/-- Claim C4: a first expiry-resolution of a live, due auction
transitions the record to Dead and emits exactly one event; invoking
expiry-resolution again on the same identifier fails with
`AuctionIsOver` and has no effect. -/
theorem expiry_single_resolution (now now2 : BlockNumber) (id : Hash)
    (s s2 : SpecState) (r : AuctionData)
    (hget : Store.get s.auctions id = some r)
    (halive : r.auction_status = AuctionStatus.Alive)
    (hdue : r.start_at + r.auction_period ≤ now)
    (h : check_expiry now id s = (Except.ok (), s2)) :
    (∃ r2, Store.get s2.auctions id = some r2 ∧
        r2.auction_status = AuctionStatus.Dead) ∧
    (∃ e, s2.events = s.events ++ [e]) ∧
    check_expiry now2 id s2 = (Except.error SpecError.AuctionIsOver, s2) := by
  unfold check_expiry at h
  rw [hget] at h
  simp only [halive] at h
  rw [if_neg (Nat.not_lt.mpr hdue)] at h
  have hs2 : s2 =
      { auctions := Store.set s.auctions id
          { r with auction_status := AuctionStatus.Dead, ended_at := now }
        events := s.events ++
          [if 0 < r.highest_bid.bid then
              Event.AuctionMatched r.seller_id r.highest_bid.buyer_id
                r.quantity r.starting_bid r.highest_bid.bid now
            else
              Event.AuctionDestroyed r.seller_id r.quantity
                r.starting_bid] } := by
    cases h
    rfl
  have hget2 : Store.get s2.auctions id = some
      { r with auction_status := AuctionStatus.Dead, ended_at := now } := by
    rw [hs2]
    exact Store.get_set_self s.auctions id r _ hget
  refine ⟨⟨_, hget2, rfl⟩, ⟨_, by rw [hs2]⟩, ?_⟩
  unfold check_expiry
  rw [hget2]

/-- Claim C4 witness: resolving the live, due auction 7 at height 10
yields the Dead record and one `AuctionMatched` event, and a second
resolution at height 11 fails with `AuctionIsOver`, state unchanged. -/
theorem expiry_single_resolution_witness :
    (∃ r2, Store.get resolvedState.auctions 7 = some r2 ∧
        r2.auction_status = AuctionStatus.Dead) ∧
    (∃ e, resolvedState.events = sampleState.events ++ [e]) ∧
    check_expiry 11 7 resolvedState =
      (Except.error SpecError.AuctionIsOver, resolvedState) :=
  expiry_single_resolution 10 11 7 sampleState resolvedState sampleRec
    rfl rfl (by decide) rfl

/-- Claim C5: a destroy request by any caller other than the record's
seller fails with `UnAuthorizedCall` and leaves the state (Store and
events) unchanged. -/
theorem destroy_unauthorized_rejected (id : Hash) (caller : AccountId)
    (s : SpecState) (r : AuctionData)
    (hget : Store.get s.auctions id = some r)
    (hne : caller ≠ r.seller_id) :
    spec_destroy id caller s =
      (Except.error SpecError.UnAuthorizedCall, s) := by
  unfold spec_destroy
  rw [hget]
  simp [hne]

/-- Claim C5 witness: account 99 is not the seller (account 1) of
auction 7, so its destroy request fails with `UnAuthorizedCall` and the
state is unchanged. -/
theorem destroy_unauthorized_rejected_witness :
    spec_destroy 7 99 sampleState =
      (Except.error SpecError.UnAuthorizedCall, sampleState) :=
  destroy_unauthorized_rejected 7 99 sampleState sampleRec rfl
    (by decide)

/-- Claim C6: a bid request on an absent identifier fails with
`AuctionDoesNotExist`, and a bid request on a Dead record fails with
`AuctionIsOver`; in both cases the state is unchanged. -/
theorem bid_absent_or_dead (id : Hash) (buyer : AccountId) (amount : Nat)
    (depositOk : Bool) (s : SpecState) :
    (Store.get s.auctions id = none →
        spec_bid id buyer amount depositOk s =
          (Except.error SpecError.AuctionDoesNotExist, s)) ∧
    (∀ r, Store.get s.auctions id = some r →
        r.auction_status = AuctionStatus.Dead →
        spec_bid id buyer amount depositOk s =
          (Except.error SpecError.AuctionIsOver, s)) := by
  constructor
  · intro h
    unfold spec_bid
    rw [h]
  · intro r hget hdead
    unfold spec_bid
    rw [hget]
    simp [hdead]

/-- Claim C6 witness: in `deadState` a bid on the absent identifier 3
fails with `AuctionDoesNotExist`, and a bid on the Dead auction 7 fails
with `AuctionIsOver`; the state is unchanged both times. -/
theorem bid_absent_or_dead_witness :
    spec_bid 3 2 60 true deadState =
      (Except.error SpecError.AuctionDoesNotExist, deadState) ∧
    spec_bid 7 2 60 true deadState =
      (Except.error SpecError.AuctionIsOver, deadState) :=
  ⟨(bid_absent_or_dead 3 2 60 true deadState).1 rfl,
   (bid_absent_or_dead 7 2 60 true deadState).2 deadRec rfl rfl⟩

/-- Claim C7: a Dead record is final — after any further sequence of
lifecycle operations it is still stored unchanged (so it never becomes
Alive again, is never mutated, and the Alive-to-Dead transition happens
at most once). -/
theorem dead_record_final (s : SpecState) (id : Hash) (r : AuctionData)
    (ops : List Op) (hget : Store.get s.auctions id = some r)
    (hdead : r.auction_status = AuctionStatus.Dead) :
    Store.get (run ops s).auctions id = some r := by
  induction ops generalizing s with
  | nil => exact hget
  | cons op ops ih =>
      rw [run_cons]
      exact ih (applyOp s op) (dead_applyOp s id r op hget hdead)

/-- Claim C7 witness: the Dead record of auction 7 survives a bid, a
destroy by the seller, and an expiry sweep, byte-for-byte unchanged. -/
theorem dead_record_final_witness :
    Store.get (run [Op.bid 7 3 100 true, Op.destroy 7 1, Op.expire 20 7]
      deadState).auctions 7 = some deadRec :=
  dead_record_final deadState 7 deadRec
    [Op.bid 7 3 100 true, Op.destroy 7 1, Op.expire 20 7] rfl rfl

/-- Claim C8: the tier classifier is pure, total, and monotonic
non-decreasing: for quantities `q1 < q2` the classified level of `q1`
is at most that of `q2`, and classifying the same quantity twice yields
the same Tier. -/
theorem classify_monotone_stable (q1 q2 : Nat) (h : q1 < q2) :
    (classify q1).level ≤ (classify q2).level ∧
    classify q1 = classify q1 ∧ classify q2 = classify q2 := by
  refine ⟨?_, rfl, rfl⟩
  unfold classify
  split_ifs <;> first | decide | omega

/-- Claim C8 witness: quantity 5 classifies at level 1 and quantity 500
at level 3, so the monotone bound holds at 5 < 500. -/
theorem classify_monotone_stable_witness :
    (classify 5).level ≤ (classify 500).level ∧
    classify 5 = classify 5 ∧ classify 500 = classify 500 :=
  classify_monotone_stable 5 500 (by decide)

/-- Claim C9: for every origin and every pallet state, the implemented
`create_auction` extrinsic returns `Ok(())`, leaves the `Auctions`
storage map entirely unchanged, and deposits no event. -/
theorem create_auction_returns_ok_unchanged (origin : AccountId)
    (s : PalletState) :
    (create_auction origin s).1 = Except.ok () ∧
    (create_auction origin s).2.auctions = s.auctions ∧
    (create_auction origin s).2.events = s.events :=
  ⟨rfl, rfl, rfl⟩

/-- Claim C10: the default `AuctionStatus` is Alive and the default
`Tier` has level 1; the default `AuctionData` has status Alive, empty
bids, the zero Bid (amount 0) as cached highest bid, and the level-1
Tier as category. -/
theorem default_values :
    AuctionStatus.default = AuctionStatus.Alive ∧
    Tier.default.level = 1 ∧
    Bid.default.bid = 0 ∧
    AuctionData.default.auction_status = AuctionStatus.Alive ∧
    AuctionData.default.bids = [] ∧
    AuctionData.default.highest_bid = Bid.default ∧
    AuctionData.default.auction_category = Tier.default :=
  ⟨rfl, rfl, rfl, rfl, rfl, rfl, rfl⟩

end Auction
